import Mathlib

/-!
Verification of the go-jackett Torznab client against its natural-language
specification.

The development shallowly embeds the parts of the repository that the claims
exercise:

* the resilient transport (`retryDo` in http.go, built on retry-go's
  `retry.Do` with `retry.Attempts(5)` and `retry.Unrecoverable`);
* the request-body capture/replay helpers (`copyBody`, `resetBody`);
* URL resolution (`buildUrl`, which calls `url.JoinPath` / `url.Parse`,
  discarding their errors);
* the request methods `GetIndexersCtx` / `GetTorrentsCtx` (error plumbing and
  the in-place `apikey` insertion into the caller's options map);
* the Torznab attribute-extraction model (`TorznabItem` and its accessors).

Machine strings are modelled as `List Char` where path-splitting arithmetic is
needed, and as Lean `String` elsewhere; Go maps are modelled as association
lists whose post-call state is what the caller of the (aliased) map observes;
fallible steps return `Except`/`Option`.
-/

/-! ## Resilient transport: `retryDo`

The source (http.go) runs the request through retry-go:

    err = retry.Do(func() error {
        resp, err = c.http.Do(req)
        if err == nil {
            if resp.StatusCode < 500 {
                return err
            } else if resp.StatusCode >= 500 {
                return retry.Unrecoverable(errors.New("unrecoverable status: %v", resp.StatusCode))
            }
        }
        retry.Delay(time.Second * 3)
        return err
    }, retry.OnRetry(...), retry.Attempts(5), retry.MaxJitter(time.Second*1))

`retry.Do` with `Attempts(5)` runs the closure up to 5 times; a `nil` return
ends the loop successfully; an error wrapped by `retry.Unrecoverable` stops the
loop at once (the default `RetryIf` is `IsRecoverable`); any other error is
retried while budget remains.  The outcome of each `c.http.Do` call is modelled
by a script mapping the attempt index to an `AttemptOutcome`. -/

/-- Outcome of one `c.http.Do(req)` call: either a transport-level failure
(`canceled` records whether it was caused by context cancellation/expiry, and
`bodyRead` whether the request body was consumed before the failure), or a
received HTTP response with the given status code. -/
inductive AttemptOutcome where
  | fail (canceled : Bool) (bodyRead : Bool)
  | resp (status : Nat)
deriving DecidableEq

/-- Error classes produced inside the retry closure: a plain transport error
(recoverable for retry-go), or the `retry.Unrecoverable` wrapper the source
puts around any status `>= 500`. -/
inductive ReqError where
  | httpError (canceled : Bool)
  | unrecoverableStatus (status : Nat)
deriving DecidableEq

/-- Value returned by the retry closure for one attempt, following the source
line by line: a received response with status below 500 returns the `nil`
error (success carrying the response), a status of 500 or above returns
`retry.Unrecoverable(...)`, and a transport failure returns its error. -/
def attemptResult : AttemptOutcome → Except ReqError Nat
  | .fail c _ => .error (.httpError c)
  | .resp s => if s < 500 then .ok s else .error (.unrecoverableStatus s)

/-- retry-go's default `RetryIf` predicate `IsRecoverable`: false exactly for
errors wrapped by `retry.Unrecoverable`.  Note that a transport error caused
by a canceled context is an ordinary (recoverable) error to retry-go — the
source passes no `retry.Context` option. -/
def recoverable : ReqError → Bool
  | .httpError _ => true
  | .unrecoverableStatus _ => false

/-- The source configures `retry.Attempts(5)`. -/
def retryAttempts : Nat := 5

/-- Core loop of retry-go's `retry.Do`: `idx` is the index of the next attempt,
the last argument the remaining attempt budget.  Returns the final result
together with the total number of attempts made. -/
def retryDoAux (script : Nat → AttemptOutcome) : Nat → Nat → Except ReqError Nat × Nat
  | idx, 0 => (.error (.httpError false), idx)
  | idx, Nat.succ r =>
    match attemptResult (script idx) with
    | .ok s => (.ok s, idx + 1)
    | .error e =>
      if recoverable e = true ∧ r ≠ 0 then retryDoAux script (idx + 1) r
      else (.error e, idx + 1)

/-- `retryDo` (http.go): execute the request with up to `retryAttempts`
attempts, returning the transport outcome and the number of attempts made. -/
def retryDo (script : Nat → AttemptOutcome) : Except ReqError Nat × Nat :=
  retryDoAux script 0 retryAttempts

/-- Script of the scenario named by the spec: the server answers 503 on the
first two attempts and 200 afterwards. -/
def script503 : Nat → AttemptOutcome :=
  fun n => if n < 2 then .resp 503 else .resp 200

/-- Script of a call whose governing context is already canceled: every
`c.http.Do` call fails immediately with a cancellation-caused transport error
(no request body is read). -/
def cancelScript : Nat → AttemptOutcome :=
  fun _ => .fail true false

/-- Claim C1: the claim states that a response with status 500 or above is
treated as eligible for another attempt, and that for a server answering 503
on the first two attempts and 200 on the third, `retryDo` returns the
successful response after at least 3 attempts.  The code does the opposite:
it wraps any status `>= 500` in `retry.Unrecoverable`, so `retry.Do` stops
after the first attempt and `retryDo` returns an error — evaluating the
embedded code on the claim's own scenario shows one attempt and a failure. -/
theorem retryDo_5xx_fails_fast :
    retryDo script503 = (Except.error (ReqError.unrecoverableStatus 503), 1) := by
  rfl

/-- On whichever attempt a sub-500 response is received, the loop ends there:
if the `n`-th attempt (counted from `idx`, within the remaining budget `r`)
receives a response with status below 500 and every earlier attempt failed at
the transport level (the only recoverable outcome), the loop returns that
response having made exactly `n + 1` further attempts. -/
theorem retryDoAux_below_500 (script : Nat → AttemptOutcome) (s : Nat) :
    ∀ (n idx r : Nat), n < r →
      (∀ i, i < n → ∃ c b, script (idx + i) = AttemptOutcome.fail c b) →
      script (idx + n) = AttemptOutcome.resp s → s < 500 →
      retryDoAux script idx r = (Except.ok s, idx + n + 1) := by
  intro n
  induction n with
  | zero =>
    intro idx r hr hprev hresp hs
    match r, hr with
    | Nat.succ r2, _ =>
      rw [Nat.add_zero] at hresp
      simp [retryDoAux, attemptResult, hresp, hs]
  | succ m ih =>
    intro idx r hr hprev hresp hs
    match r, hr with
    | Nat.succ r2, hr =>
      obtain ⟨c, b, hfail⟩ := hprev 0 (Nat.succ_pos m)
      rw [Nat.add_zero] at hfail
      have hr2 : m < r2 := Nat.lt_of_succ_lt_succ hr
      have hrec : retryDoAux script (idx + 1) r2 = (Except.ok s, (idx + 1) + m + 1) := by
        refine ih (idx + 1) r2 hr2 ?_ ?_ hs
        · intro i hi
          obtain ⟨c2, b2, hf⟩ := hprev (i + 1) (Nat.succ_lt_succ hi)
          exact ⟨c2, b2, by rw [show idx + 1 + i = idx + (i + 1) by omega]; exact hf⟩
        · rw [show idx + 1 + m = idx + (m + 1) by omega]; exact hresp
      have hbudget : r2 ≠ 0 := Nat.pos_iff_ne_zero.1 (Nat.lt_of_le_of_lt (Nat.zero_le m) hr2)
      simp only [retryDoAux, attemptResult, hfail, recoverable]
      rw [if_pos ⟨trivial, hbudget⟩, hrec]
      congr 1
      omega

/-- Claim C5: whenever a response with status code below 500 is received — on
the first attempt or on any retried attempt reached after recoverable
transport failures within the 5-attempt budget — `retryDo` considers the call
complete on that attempt and returns the response as a successful transport
outcome, with no further retry. -/
theorem retryDo_below_500_completes_on_that_attempt
    (script : Nat → AttemptOutcome) (n s : Nat)
    (hn : n < retryAttempts)
    (hprev : ∀ i, i < n → ∃ c b, script i = AttemptOutcome.fail c b)
    (hresp : script n = AttemptOutcome.resp s) (hs : s < 500) :
    retryDo script = (Except.ok s, n + 1) := by
  have h := retryDoAux_below_500 script s n 0 retryAttempts hn
    (fun i hi => by simpa using hprev i hi) (by simpa using hresp) hs
  simpa [retryDo] using h

/-- Script in which the first attempt fails at the transport level and the
second receives a 404. -/
def retryThen404Script : Nat → AttemptOutcome :=
  fun n => if n = 0 then .fail false false else .resp 404

/-- Witness for claim C5: a 404 received on the first attempt is returned at
once, and a 404 received on the second attempt (after one recoverable
transport failure) completes the call on that second attempt. -/
theorem retryDo_below_500_completes_on_that_attempt_witness :
    retryDo (fun _ => AttemptOutcome.resp 404) = (Except.ok 404, 1) ∧
      retryDo retryThen404Script = (Except.ok 404, 2) := by
  constructor
  · exact retryDo_below_500_completes_on_that_attempt (fun _ => AttemptOutcome.resp 404)
      0 404 (by decide) (fun i hi => absurd hi (Nat.not_lt_zero i)) rfl (by decide)
  · refine retryDo_below_500_completes_on_that_attempt retryThen404Script
      1 404 (by decide) ?_ rfl (by decide)
    intro i hi
    have hi0 : i = 0 := by omega
    subst hi0
    exact ⟨false, false, rfl⟩

/-- Claim C4 counterexample: with the governing context canceled before the
first attempt, the claim requires an immediate return with a cancellation
error and no further attempts; the code instead makes all 5 attempts (the
cancellation-caused transport error is recoverable for retry-go, which the
source configures without `retry.Context`) and only then surfaces the wrapped
error, so the attempt count is 5, not 1. -/
theorem retryDo_cancel_counterexample :
    retryDo cancelScript = (Except.error (ReqError.httpError true), 5) ∧
      (retryDo cancelScript).2 ≠ 1 := by
  exact ⟨rfl, by decide⟩

/-- Claim C4 (amended): a canceled or expired context makes every `http.Do`
attempt fail immediately, but `retryDo` treats that transport error like any
other recoverable failure: the retry loop still runs its full 5-attempt
schedule (with inter-attempt delays) and then returns the wrapped cancellation
error; the loop is not aborted early and no dedicated cancellation error class
is produced. -/
theorem retryDo_cancel_runs_full_schedule
    (script : Nat → AttemptOutcome)
    (h : ∀ n, script n = AttemptOutcome.fail true false) :
    retryDo script = (Except.error (ReqError.httpError true), 5) := by
  simp [retryDo, retryDoAux, retryAttempts, attemptResult, recoverable, h]

/-- Witness for the amended claim C4, applied to the canceled-context script. -/
theorem retryDo_cancel_runs_full_schedule_witness :
    retryDo cancelScript = (Except.error (ReqError.httpError true), 5) :=
  retryDo_cancel_runs_full_schedule cancelScript (fun _ => rfl)

/-! ## Request-body capture and replay (`copyBody`, `resetBody`)

The source captures the body once, before the retry loop:

    if req != nil && req.Body != nil {
        originalBody, err = copyBody(req.Body)
        resetBody(req, originalBody)
    }

`copyBody` reads the whole body (`io.ReadAll`) and `resetBody` installs a
fresh reader over the captured bytes (plus a `GetBody` function used only by
net/http internally).  Nothing inside the retry closure touches the body, so
an attempt that consumes it leaves the next `http.Do` call with an empty
reader.  The model threads the reader state through the attempts and records,
for each attempt, the bytes available to it when it starts. -/

/-- Whether an attempt consumes the request body: a received response means the
body was fully written; a transport failure consumes it exactly when the
failure happened after the body was read (`bodyRead`). -/
def consumesBody : AttemptOutcome → Bool
  | .fail _ br => br
  | .resp _ => true

/-- `copyBody` (http.go): `io.ReadAll` captures exactly the original bytes. -/
def copyBody (b : List Nat) : List Nat := b

/-- `resetBody` (http.go): installs a fresh readable body holding exactly the
captured bytes; the value is the reader's initial content. -/
def resetBody (originalBody : List Nat) : List Nat := originalBody

/-- Retry loop with the request-body reader state threaded through: `avail` is
the unread content of `req.Body`, and the returned list records the content
available to each attempt at its start.  The body is never reset inside the
loop, mirroring the source, where `resetBody` runs once before `retry.Do`. -/
def retryDoBodyAux (script : Nat → AttemptOutcome) :
    Nat → Nat → List Nat → List (List Nat) → (Except ReqError Nat × Nat) × List (List Nat)
  | idx, 0, _, seen => ((.error (.httpError false), idx), seen)
  | idx, Nat.succ r, avail, seen =>
    match attemptResult (script idx) with
    | .ok s => ((.ok s, idx + 1), seen ++ [avail])
    | .error e =>
      if recoverable e = true ∧ r ≠ 0 then
        retryDoBodyAux script (idx + 1) r
          (if consumesBody (script idx) then [] else avail) (seen ++ [avail])
      else ((.error e, idx + 1), seen ++ [avail])

/-- `retryDo` with its body handling (http.go): capture the original body
bytes once, reset the body once, then run the attempts. -/
def retryDoBody (script : Nat → AttemptOutcome) (body : List Nat) :
    (Except ReqError Nat × Nat) × List (List Nat) :=
  retryDoBodyAux script 0 retryAttempts (resetBody (copyBody body)) []

/-- Script in which the first attempt fails at the transport level after the
server consumed the request body, and the second attempt succeeds. -/
def bodyRetryScript : Nat → AttemptOutcome :=
  fun n => if n = 0 then .fail false true else .resp 200

/-- Claim C3 counterexample: the claim states that a fresh readable body with
exactly the original bytes is reconstructed before every attempt, so each
retried attempt carries the same payload as the first.  In the code the body
is reset only once, before the first attempt: after a first attempt that
consumed the body, the retried attempt finds an empty body, not the original
payload. -/
theorem retryDoBody_stale_counterexample :
    retryDoBody bodyRetryScript [1, 2, 3] =
      ((Except.ok 200, 2), [[1, 2, 3], []]) ∧ ([] : List Nat) ≠ [1, 2, 3] := by
  exact ⟨rfl, by decide⟩

/-- Claim C3 (amended): the transport captures the original body bytes once and
reconstructs a fresh readable body holding exactly those bytes once, before the
first attempt (also installing a `GetBody` replay function that only net/http
uses internally); the body is not reconstructed before later attempts of the
retry loop, so after a first attempt that consumed the body a retried attempt
has an empty body available instead of the original payload. -/
theorem retryDoBody_resets_once
    (script : Nat → AttemptOutcome) (body : List Nat)
    (h0 : script 0 = AttemptOutcome.fail false true)
    (h1 : script 1 = AttemptOutcome.resp 200) :
    retryDoBody script body = ((Except.ok 200, 2), [body, []]) := by
  simp [retryDoBody, retryDoBodyAux, retryAttempts, attemptResult, recoverable,
    consumesBody, copyBody, resetBody, h0, h1]

/-- Witness for the amended claim C3 at a concrete body. -/
theorem retryDoBody_resets_once_witness :
    retryDoBody bodyRetryScript [9] = ((Except.ok 200, 2), [[9], []]) :=
  retryDoBody_resets_once bodyRetryScript [9] rfl rfl

/-! ## URL resolution: `buildUrl`

The source (http.go):

    func (c *Client) buildUrl(endpoint string, params map[string]string) string {
        apiBase := "/api/v2.0/indexers/"
        queryParams := url.Values{}
        for key, value := range params {
            queryParams.Add(key, value)
        }
        joinedUrl, _ := url.JoinPath(c.cfg.Host, apiBase, endpoint)
        parsedUrl, _ := url.Parse(joinedUrl)
        parsedUrl.RawQuery = queryParams.Encode()
        return parsedUrl.String()
    }

There is no branch on the configuration's `DirectMode` flag: the fixed base is
always injected.  Errors from `url.JoinPath` (a malformed host) are bound to
`_` and discarded; Go then leaves `joinedUrl` as the empty string, which
`url.Parse` accepts, so the function returns a URL with an empty path instead
of failing.  The claims are about the path of the resolved URL, so the model
computes the path's segment list: `url.JoinPath` joins the parsed host path
with the elements and cleans the result exactly like Go's `path.Join`
(duplicate slashes dropped, `.` removed, `..` popping the previous segment).
The configured host string is modelled in parsed form: its path plus a flag
recording whether `url.Parse` accepts it. -/

/-- Splits a character list at every `/`, accumulating the current segment in
reverse (the model of the segment decomposition that Go's `path.Join` /
`path.Clean` perform on the joined path). -/
def splitSlashAux : List Char → List Char → List (List Char)
  | [], cur => [cur.reverse]
  | c :: cs, cur => if c = '/' then cur.reverse :: splitSlashAux cs [] else splitSlashAux cs (c :: cur)

/-- All `/`-separated chunks of a path, empty chunks included. -/
def splitSlash (s : List Char) : List (List Char) := splitSlashAux s []

/-- The non-empty segments of a path (Go's `path.Clean` drops the empty chunks
produced by duplicate or leading/trailing slashes). -/
def segs (s : List Char) : List (List Char) := (splitSlash s).filter (fun t => t ≠ [])

/-- One step of Go's `path.Clean` on a rooted path, at segment level: `.` is
dropped, `..` pops the previous segment, anything else is kept. -/
def cleanStep (acc : List (List Char)) (sg : List Char) : List (List Char) :=
  if sg = ['.'] then acc
  else if sg = ['.', '.'] then acc.dropLast
  else acc ++ [sg]

/-- Go's `path.Clean` on a rooted path, at segment level. -/
def cleanSegs (l : List (List Char)) : List (List Char) := l.foldl cleanStep []

/-- Segment list of the path produced by joining path strings the way
`url.JoinPath` does (`path.Join`: concatenate with slashes, then clean). -/
def joinSegs (parts : List (List Char)) : List (List Char) :=
  cleanSegs ((parts.map segs).flatten)

/-- The configured host (`c.cfg.Host`) in parsed form: the path component of
the URL, and whether `url.Parse` accepts the host string at all. -/
structure HostURL where
  path : List Char
  wellFormed : Bool
deriving DecidableEq

/-- The client configuration fields the addressed claims touch (`jackett.go`:
`Host`, `APIKey`, `DirectMode`). -/
structure Config where
  Host : HostURL
  APIKey : String
  DirectMode : Bool

/-- The error `url.JoinPath` returns for a host string `url.Parse` rejects. -/
inductive UrlError where
  | malformedHost
deriving DecidableEq

/-- The fixed proxy mount constant `apiBase` of `buildUrl`. -/
def apiBase : List Char := "/api/v2.0/indexers/".toList

/-- Model of `url.JoinPath(host, elems...)` restricted to the path component:
fails exactly on a malformed host, otherwise joins and cleans the host path
with the elements. -/
def joinPathE (h : HostURL) (elems : List (List Char)) : Except UrlError (List (List Char)) :=
  if h.wellFormed then .ok (joinSegs (h.path :: elems)) else .error .malformedHost

/-- Path-component model of `buildUrl` (http.go): join host, `apiBase` and the
endpoint; the error from `url.JoinPath` is discarded (`joinedUrl, _ := ...`),
leaving the empty string, whose parse has an empty path. -/
def buildUrlPath (cfg : Config) (endpoint : List Char) : List (List Char) :=
  match joinPathE cfg.Host [apiBase, endpoint] with
  | .ok p => p
  | .error _ => []

/-- Endpoint string passed to `getCtx` by `GetTorrentsCtx` (torznab.go):
`indexer + "/results/torznab/api"`. -/
def torrentsEndpoint (indexer : List Char) : List Char :=
  indexer ++ "/results/torznab/api".toList

/-- Splitting a slash-free chunk followed by a slash yields that chunk as one
segment, whatever has been accumulated so far. -/
theorem splitSlashAux_chunk_slash (ind : List Char) :
    '/' ∉ ind → ∀ (rest cur : List Char),
      splitSlashAux (ind ++ '/' :: rest) cur = (cur.reverse ++ ind) :: splitSlashAux rest [] := by
  induction ind with
  | nil => intro _ rest cur; simp [splitSlashAux]
  | cons c cs ih =>
    intro h rest cur
    have hc : ¬ c = '/' := fun hh => h (by simp [hh])
    have hcs : '/' ∉ cs := fun hh => h (by simp [hh])
    simp [splitSlashAux, hc, ih hcs rest (c :: cur), List.append_assoc]

/-- A non-empty slash-free chunk followed by `/` contributes exactly one
segment before the segments of the remainder. -/
theorem segs_chunk_slash (ind rest : List Char)
    (hns : '/' ∉ ind) (hne : ind ≠ []) :
    segs (ind ++ '/' :: rest) = ind :: segs rest := by
  simp [segs, splitSlash, splitSlashAux_chunk_slash ind hns rest [], hne]

/-- Cleaning a segment list that contains no `.` or `..` segments leaves it
unchanged (auxiliary form with an accumulator). -/
theorem cleanSegs_no_dots_aux (l : List (List Char))
    (h : ∀ sg ∈ l, sg ≠ ['.'] ∧ sg ≠ ['.', '.']) :
    ∀ acc, l.foldl cleanStep acc = acc ++ l := by
  induction l with
  | nil => intro acc; simp
  | cons sg rest ih =>
    intro acc
    have hsg := h sg (by simp)
    have hrest : ∀ x ∈ rest, x ≠ ['.'] ∧ x ≠ ['.', '.'] := fun x hx => h x (by simp [hx])
    simp [List.foldl_cons, cleanStep, hsg.1, hsg.2, ih hrest (acc ++ [sg])]

/-- Cleaning a segment list that contains no `.` or `..` segments leaves it
unchanged. -/
theorem cleanSegs_no_dots (l : List (List Char))
    (h : ∀ sg ∈ l, sg ≠ ['.'] ∧ sg ≠ ['.', '.']) :
    cleanSegs l = l := by
  simpa using cleanSegs_no_dots_aux l h []

/-- Example configuration for proxy mode: Jackett at the server root
(host `http://localhost:9117`, whose parsed path is empty), as in the repo's
tests. -/
def cfgProxyExample : Config := ⟨⟨[], true⟩, "test-key", false⟩

/-- Example configuration for direct mode, as in the repo's `TestBuildURL`:
host `https://tracker.example.com/api/torznab` with `DirectMode: true`. -/
def cfgDirectExample : Config := ⟨⟨"/api/torznab".toList, true⟩, "test-key", true⟩

/-- A configuration whose host string `url.Parse` rejects (for instance
`"://bad"`): the parsed form records only that parsing fails. -/
def cfgBadHost : Config := ⟨⟨[], false⟩, "", false⟩

/-- Claim C9: with `directMode=false`, the resolved torrent-search URL's path
is the host path followed by the fixed proxy mount `/api/v2.0/indexers/`, the
supplied indexer identifier, and the constant results suffix
`/results/torznab/api` (for a slash-free, non-dot indexer identifier and a
dot-free host path). -/
theorem buildUrl_proxy_mode_mount (cfg : Config) (indexer : List Char)
    (hwf : cfg.Host.wellFormed = true)
    (hmode : cfg.DirectMode = false)
    (hclean : ∀ sg ∈ segs cfg.Host.path, sg ≠ ['.'] ∧ sg ≠ ['.', '.'])
    (hns : '/' ∉ indexer) (hne : indexer ≠ [])
    (hd1 : indexer ≠ ['.']) (hd2 : indexer ≠ ['.', '.']) :
    buildUrlPath cfg (torrentsEndpoint indexer) =
      segs cfg.Host.path ++
        ["api".toList, "v2.0".toList, "indexers".toList] ++
        indexer :: ["results".toList, "torznab".toList, "api".toList] := by
  have hend : torrentsEndpoint indexer = indexer ++ '/' :: "results/torznab/api".toList := rfl
  have hsegs : segs (torrentsEndpoint indexer) = indexer :: segs ("results/torznab/api".toList) := by
    rw [hend]
    exact segs_chunk_slash indexer ("results/torznab/api".toList) hns hne
  have hrest : segs ("results/torznab/api".toList) =
      ["results".toList, "torznab".toList, "api".toList] := by decide
  have hbase : segs apiBase = ["api".toList, "v2.0".toList, "indexers".toList] := by decide
  simp only [buildUrlPath, joinPathE, hwf, if_true, joinSegs, List.map_cons, List.map_nil,
    List.flatten, hsegs, hrest, hbase, List.append_nil]
  rw [cleanSegs_no_dots]
  · simp
  · intro sg hm
    rcases List.mem_append.1 hm with hm1 | hm2
    · exact hclean sg hm1
    · have hcase : sg = "api".toList ∨ sg = "v2.0".toList ∨ sg = "indexers".toList ∨
          sg = indexer ∨ sg = "results".toList ∨ sg = "torznab".toList ∨
          sg = "api".toList := by
        simpa using hm2
      rcases hcase with h | h | h | h | h | h | h
      · subst h; exact ⟨by decide, by decide⟩
      · subst h; exact ⟨by decide, by decide⟩
      · subst h; exact ⟨by decide, by decide⟩
      · subst h; exact ⟨hd1, hd2⟩
      · subst h; exact ⟨by decide, by decide⟩
      · subst h; exact ⟨by decide, by decide⟩
      · subst h; exact ⟨by decide, by decide⟩

/-- Witness for claim C9: the indexer `all` against a host at the server root
resolves to the path `/api/v2.0/indexers/all/results/torznab/api`, as the
repo's `TestGetIndexers` asserts. -/
theorem buildUrl_proxy_mode_mount_witness :
    buildUrlPath cfgProxyExample (torrentsEndpoint "all".toList) =
      ["api".toList, "v2.0".toList, "indexers".toList, "all".toList,
        "results".toList, "torznab".toList, "api".toList] := by
  have h := buildUrl_proxy_mode_mount cfgProxyExample ("all".toList) rfl rfl
    (by decide) (by decide) (by decide) (by decide) (by decide)
  simpa using h

/-- Claim C2: the claim states that with `directMode=true` the resolved path is
the host path joined with the endpoint suffix verbatim, with no fixed base
injected.  `buildUrl` has no direct-mode branch: for the direct-mode
configuration of the repo's `TestBuildURL` (host path `/api/torznab`,
endpoint `search`) it still injects `/api/v2.0/indexers/`, producing
`/api/torznab/api/v2.0/indexers/search` instead of the expected
`/api/torznab/search`. -/
theorem buildUrl_direct_mode_injects_mount :
    buildUrlPath cfgDirectExample "search".toList =
      ["api".toList, "torznab".toList, "api".toList, "v2.0".toList,
        "indexers".toList, "search".toList] ∧
      buildUrlPath cfgDirectExample "search".toList ≠
        ["api".toList, "torznab".toList, "search".toList] := by
  exact ⟨by decide, by decide⟩

/-- Claim C6 counterexample: the claim states that a malformed host is reported
at call time as a configuration error.  For a malformed host, `url.JoinPath`
does fail inside `buildUrl`, but `buildUrl` binds that error to `_` and
returns a URL value anyway (its path empty, the host dropped): no error of any
kind is surfaced at resolution time. -/
theorem buildUrl_malformed_host_counterexample :
    joinPathE cfgBadHost.Host [apiBase, "x".toList] = Except.error UrlError.malformedHost ∧
      buildUrlPath cfgBadHost "x".toList = [] := by
  exact ⟨rfl, rfl⟩

/-- Claim C6 (amended): URL resolution never fails for well-formed inputs — and
it does not fail for a malformed host either: `buildUrl` discards the error
`url.JoinPath` reports there and returns a URL whose path is empty, so the
malformed-host failure is not reported as a configuration error at resolution
time but deferred to the later request-building/execution stage. -/
theorem buildUrl_total_discards_errors (cfg : Config) (endpoint : List Char) :
    (cfg.Host.wellFormed = true →
      joinPathE cfg.Host [apiBase, endpoint] =
        Except.ok (joinSegs [cfg.Host.path, apiBase, endpoint]) ∧
      buildUrlPath cfg endpoint = joinSegs [cfg.Host.path, apiBase, endpoint]) ∧
    (cfg.Host.wellFormed = false →
      joinPathE cfg.Host [apiBase, endpoint] = Except.error UrlError.malformedHost ∧
      buildUrlPath cfg endpoint = []) := by
  constructor <;> intro h <;> simp [buildUrlPath, joinPathE, h]

/-- Witness for the amended claim C6 on a well-formed and a malformed host. -/
theorem buildUrl_total_discards_errors_witness :
    buildUrlPath cfgProxyExample "x".toList =
      joinSegs [cfgProxyExample.Host.path, apiBase, "x".toList] ∧
      buildUrlPath cfgBadHost "x".toList = [] :=
  ⟨((buildUrl_total_discards_errors cfgProxyExample ("x".toList)).1 rfl).2,
    ((buildUrl_total_discards_errors cfgBadHost ("x".toList)).2 rfl).2⟩

/-! ## Request methods: `GetIndexersCtx` and `GetTorrentsCtx`

The source (torznab.go):

    func (c *Client) GetTorrentsCtx(ctx context.Context, indexer string, opts map[string]string) (Rss, error) {
        if len(c.cfg.APIKey) != 0 {
            opts["apikey"] = c.cfg.APIKey
        }
        var rss Rss
        resp, err := c.getCtx(ctx, indexer+"/results/torznab/api", opts)
        if err != nil {
            return rss, errors.Wrap(err, indexer+" endpoint error")
        }
        defer resp.Body.Close()
        body := bufio.NewReader(resp.Body)
        if _, err := body.Peek(0); err != nil && err != bufio.ErrBufferFull {
            return rss, errors.Wrap(err, "unable to read body")
        }
        err = xml.NewDecoder(body).Decode(&rss)
        return rss, err
    }

and `GetIndexersCtx` is the same shape with fixed options and the literal
endpoint `all/results/torznab/api`.  Go maps are passed by reference, so the
`opts["apikey"] = ...` assignment mutates the caller's map; the model threads
the map as a value whose returned state is what the caller observes after the
call.  `bufio.Reader.Peek(0)` never returns an error (its fill loop does not
run and zero bytes are always available), so that branch is dead and is not
modelled.  The XML decoder is an external collaborator: `Decode(&v)` fills `v`
incrementally while parsing, so its effect is modelled by the pair of the
value it leaves behind and the error it returns. -/

/-- Go map of string options, modelled as an association list; the state the
function returns is the state of the caller's (aliased) map after the call. -/
def OptsMap : Type := List (String × String)

/-- Go map assignment `m[k] = v`: overwrite the existing binding or add one. -/
def insertOpt : OptsMap → String → String → OptsMap
  | [], k, v => [(k, v)]
  | (k2, v2) :: rest, k, v =>
    if k2 = k then (k, v) :: rest else (k2, v2) :: insertOpt rest k v

/-- Go map lookup `m[k]`. -/
def lookupOpt : OptsMap → String → Option String
  | [], _ => none
  | (k2, v2) :: rest, k => if k2 = k then some v2 else lookupOpt rest k

/-- Transport-level failure reported by `getCtx` / `retryDo`. -/
inductive TransportErr where
  | transportFailure
deriving DecidableEq

/-- Failure of the external XML decoder on the response body. -/
inductive DecodeErr where
  | malformedXml
deriving DecidableEq

/-- Error returned to the caller of a request method: the transport error
wrapped with the endpoint annotation, or the decoder's error passed through. -/
inductive CallError where
  | endpointError
  | decodeError (e : DecodeErr)
deriving DecidableEq

/-- Decoded indexer list (`Indexers`), abstracted to the indexer ids; the Go
zero value is the empty list. -/
structure Indexers where
  Indexer : List String
deriving DecidableEq

/-- Decoded search feed (`Rss`), abstracted to the item titles; the Go zero
value is the empty list. -/
structure Rss where
  Item : List String
deriving DecidableEq

/-- `GetIndexersCtx` (torznab.go): build the fixed options (adding `apikey`
when configured), fetch `all/results/torznab/api`, and on success return
whatever the XML decoder left in `ind` together with the decoder's error.
`fetch` abstracts `c.getCtx` as a function of the resolved URL path and the
options; `decodeOut`/`decodeErr` abstract the decoder's effect. -/
def GetIndexersCtx (cfg : Config)
    (fetch : List (List Char) → OptsMap → Except TransportErr Unit)
    (decodeOut : Indexers) (decodeErr : Option DecodeErr) : Indexers × Option CallError :=
  let opts0 : OptsMap := [("t", "indexers"), ("configured", "true")]
  let opts := if cfg.APIKey.length ≠ 0 then insertOpt opts0 "apikey" cfg.APIKey else opts0
  match fetch (buildUrlPath cfg ("all/results/torznab/api".toList)) opts with
  | .error _ => (⟨[]⟩, some .endpointError)
  | .ok _ => (decodeOut, decodeErr.map .decodeError)

/-- `GetTorrentsCtx` (torznab.go): insert `apikey` into the caller's options
map when configured, fetch `indexer+"/results/torznab/api"`, and on success
return whatever the XML decoder left in `rss` together with the decoder's
error.  The second component of the result is the final state of the caller's
options map (the map is aliased, not copied). -/
def GetTorrentsCtx (cfg : Config) (indexer : List Char) (opts : OptsMap)
    (fetch : List (List Char) → OptsMap → Except TransportErr Unit)
    (decodeOut : Rss) (decodeErr : Option DecodeErr) :
    (Rss × Option CallError) × OptsMap :=
  let opts2 := if cfg.APIKey.length ≠ 0 then insertOpt opts "apikey" cfg.APIKey else opts
  (match fetch (buildUrlPath cfg (torrentsEndpoint indexer)) opts2 with
    | .error _ => (⟨[]⟩, some .endpointError)
    | .ok _ => (decodeOut, decodeErr.map .decodeError), opts2)

/-- A fetch that succeeds. -/
def fetchOk : List (List Char) → OptsMap → Except TransportErr Unit :=
  fun _ _ => .ok ()

/-- A fetch that fails at the transport level. -/
def fetchFail : List (List Char) → OptsMap → Except TransportErr Unit :=
  fun _ _ => .error .transportFailure

/-- Looking up the inserted key finds the inserted value. -/
theorem lookupOpt_insertOpt_self (m : OptsMap) (k v : String) :
    lookupOpt (insertOpt m k v) k = some v := by
  induction m with
  | nil => simp [insertOpt, lookupOpt]
  | cons p rest ih =>
    by_cases h : p.1 = k
    · simp [insertOpt, lookupOpt, h]
    · simp [insertOpt, lookupOpt, h, ih]

/-- Inserting a key leaves every other key's binding unchanged. -/
theorem lookupOpt_insertOpt_ne (m : OptsMap) (k v k2 : String) (h : k2 ≠ k) :
    lookupOpt (insertOpt m k v) k2 = lookupOpt m k2 := by
  induction m with
  | nil => simp [insertOpt, lookupOpt, h.symm]
  | cons p rest ih =>
    by_cases hp : p.1 = k
    · simp [insertOpt, lookupOpt, hp, h.symm]
    · by_cases hp2 : p.1 = k2
      · simp [insertOpt, lookupOpt, hp, hp2, h]
      · simp [insertOpt, lookupOpt, hp, hp2, ih]

/-- Claim C7 counterexample: the claim states that a failed call never hands
the caller a partially populated result together with the error.  The source
returns `ind, err` directly from the XML decode step, and the standard
decoder fills the value incrementally while parsing, so when it errors after
decoding some elements the caller receives the partially populated value
alongside the error: here one decoded indexer arrives together with the
decode error. -/
theorem getIndexers_partial_result_counterexample :
    GetIndexersCtx cfgProxyExample fetchOk ⟨["test-indexer"]⟩ (some DecodeErr.malformedXml) =
      (⟨["test-indexer"]⟩, some (CallError.decodeError DecodeErr.malformedXml)) ∧
      Indexers.mk ["test-indexer"] ≠ Indexers.mk [] := by
  exact ⟨rfl, by decide⟩

/-- Claim C7 (amended): every failed call to `GetIndexersCtx` or
`GetTorrentsCtx` surfaces exactly one (wrapped) error — a transport failure
yields the endpoint-annotated error with the zero value as result, a decode
failure yields the decoder's error — but on a decode failure the result
returned alongside the error is whatever the decoder left behind, which can be
partially populated; only the transport-failure path guarantees a zero-value
result. -/
theorem getCalls_one_error_per_failure (cfg : Config) (decI : Indexers) (decR : Rss)
    (e : DecodeErr) (indexer : List Char) (opts : OptsMap) :
    GetIndexersCtx cfg fetchFail decI none = (⟨[]⟩, some CallError.endpointError) ∧
      GetIndexersCtx cfg fetchOk decI (some e) = (decI, some (CallError.decodeError e)) ∧
      GetIndexersCtx cfg fetchOk decI none = (decI, none) ∧
      (GetTorrentsCtx cfg indexer opts fetchFail decR none).1 =
        (⟨[]⟩, some CallError.endpointError) ∧
      (GetTorrentsCtx cfg indexer opts fetchOk decR (some e)).1 =
        (decR, some (CallError.decodeError e)) ∧
      (GetTorrentsCtx cfg indexer opts fetchOk decR none).1 = (decR, none) :=
  ⟨rfl, rfl, rfl, rfl, rfl, rfl⟩

/-- Claim C10: when the configured API key is non-empty, `GetTorrentsCtx`
writes the binding `apikey = cfg.APIKey` into the caller-supplied options map
itself (Go maps are aliased, so the caller observes the mutation after the
call) and leaves every other key's binding unchanged. -/
theorem getTorrents_mutates_caller_opts (cfg : Config) (indexer : List Char)
    (opts : OptsMap) (fetch : List (List Char) → OptsMap → Except TransportErr Unit)
    (decR : Rss) (decodeErr : Option DecodeErr) (h : cfg.APIKey.length ≠ 0) :
    lookupOpt (GetTorrentsCtx cfg indexer opts fetch decR decodeErr).2 "apikey" =
        some cfg.APIKey ∧
      ∀ k2, k2 ≠ "apikey" →
        lookupOpt (GetTorrentsCtx cfg indexer opts fetch decR decodeErr).2 k2 =
          lookupOpt opts k2 := by
  have h2 : (GetTorrentsCtx cfg indexer opts fetch decR decodeErr).2 =
      insertOpt opts "apikey" cfg.APIKey := by
    show (if cfg.APIKey.length ≠ 0 then insertOpt opts "apikey" cfg.APIKey else opts) =
      insertOpt opts "apikey" cfg.APIKey
    exact if_pos h
  constructor
  · rw [h2]; exact lookupOpt_insertOpt_self opts "apikey" cfg.APIKey
  · intro k2 hk2; rw [h2]; exact lookupOpt_insertOpt_ne opts "apikey" cfg.APIKey k2 hk2

/-- Witness for claim C10: with the API key `test-key`, the caller's map gains
the `apikey` binding and keeps its `t` binding. -/
theorem getTorrents_mutates_caller_opts_witness :
    lookupOpt (GetTorrentsCtx cfgProxyExample ("all".toList) [("t", "search")]
        fetchOk ⟨[]⟩ none).2 "apikey" = some "test-key" ∧
      lookupOpt (GetTorrentsCtx cfgProxyExample ("all".toList) [("t", "search")]
        fetchOk ⟨[]⟩ none).2 "t" = some "search" := by
  have h := getTorrents_mutates_caller_opts cfgProxyExample ("all".toList)
    [("t", "search")] fetchOk ⟨[]⟩ none (by decide)
  refine ⟨h.1, ?_⟩
  rw [h.2 "t" (by decide)]
  decide

/-! ## Attribute extraction model: `TorznabItem`

The implementation file torznab.go (the `TorznabItem` type, `ToTorznabItems`
and the accessor methods) is not part of the provided sources — only its test
file is.  The definitions below are therefore modelled from the specification
(section 4.4, Attribute Extraction Model) and cross-checked against the
behavior the repository's tests assert. -/

/-- Modelled from the spec: digit-run parsing used by the numeric accessors of
the missing torznab.go (`strconv` semantics: a non-empty run of decimal
digits, anything else fails). -/
def parseDigitsAux : List Char → Nat → Option Nat
  | [], acc => some acc
  | c :: cs, acc => if c.isDigit then parseDigitsAux cs (acc * 10 + (c.toNat - 48)) else none

/-- Modelled from the spec: parse a non-empty all-digit character run. -/
def parseDigits : List Char → Option Nat
  | [] => none
  | c :: cs => parseDigitsAux (c :: cs) 0

/-- Modelled from the spec: integer parsing for the numeric accessors of the
missing torznab.go (optional sign followed by digits; anything else fails,
and the accessor degrades to zero). -/
def parseInt (s : String) : Option Int :=
  match s.toList with
  | '-' :: rest => (parseDigits rest).map (fun n => -(n : Int))
  | '+' :: rest => (parseDigits rest).map (fun n => (n : Int))
  | l => (parseDigits l).map (fun n => (n : Int))

/-- Modelled from the spec: split a character run at the first dot. -/
def splitOnDot : List Char → List Char × Option (List Char)
  | [] => ([], none)
  | '.' :: rest => ([], some rest)
  | c :: rest =>
    match splitOnDot rest with
    | (a, b) => (c :: a, b)

/-- Modelled from the spec: parse an unsigned decimal number (digits with an
optional fractional part) as an exact rational — the model of the float
values the volume-factor accessors of the missing torznab.go parse. -/
def parseRatPos (l : List Char) : Option ℚ :=
  match splitOnDot l with
  | (intPart, none) => (parseDigits intPart).map (fun n => (n : ℚ))
  | (intPart, some fracPart) =>
    match parseDigits intPart, parseDigits fracPart with
    | some n, some f => some ((n : ℚ) + (f : ℚ) / ((10 : ℚ) ^ fracPart.length))
    | _, _ => none

/-- Modelled from the spec: signed decimal parsing for the float accessors. -/
def parseRat (s : String) : Option ℚ :=
  match s.toList with
  | '-' :: rest => (parseRatPos rest).map (fun q => -q)
  | '+' :: rest => parseRatPos rest
  | l => parseRatPos l

/-- Modelled from the spec: one decoded wire result item of the missing
torznab.go — the RSS-level category code list and the repeatable extension
attributes as `name`/`value` pairs in wire order (the scalar fields other
than the title are not needed by the addressed claim). -/
structure RawItem where
  Title : String
  Category : List String
  Attr : List (String × String)
deriving DecidableEq

/-- Modelled from the spec: the typed item view of the missing torznab.go,
wrapping one raw item; the attribute index maps each name to its values in
preserved wire order (represented by the ordered pair list itself). -/
structure TorznabItem where
  Title : String
  Category : List String
  Attributes : List (String × String)
deriving DecidableEq

/-- Modelled from the spec: construction of the typed view for one raw item
(the missing `ToTorznabItems` maps this over the channel's items). -/
def ToTorznabItem (r : RawItem) : TorznabItem :=
  ⟨r.Title, r.Category, r.Attr⟩

/-- Modelled from the spec: `Rss.ToTorznabItems` of the missing torznab.go,
wrapping every decoded item. -/
def ToTorznabItems (items : List RawItem) : List TorznabItem :=
  items.map ToTorznabItem

/-- Modelled from the spec: `GetAttrValues` — every value of the named
repeated attribute, in wire order, empty if absent. -/
def TorznabItem.GetAttrValues (it : TorznabItem) (name : String) : List String :=
  (it.Attributes.filter (fun p => p.1 = name)).map (fun p => p.2)

/-- Modelled from the spec: `GetAttr` — the first value of the named
attribute, or the empty string when absent. -/
def TorznabItem.GetAttr (it : TorznabItem) (name : String) : String :=
  (it.GetAttrValues name).headD ""

/-- Modelled from the spec: `GetAttrInt` — first value parsed as an integer,
zero on absence or parse failure. -/
def TorznabItem.GetAttrInt (it : TorznabItem) (name : String) : Int :=
  (parseInt (it.GetAttr name)).getD 0

/-- Modelled from the spec: `GetAttrFloat` — first value parsed as a number,
zero on absence or parse failure. -/
def TorznabItem.GetAttrFloat (it : TorznabItem) (name : String) : ℚ :=
  (parseRat (it.GetAttr name)).getD 0

/-- Modelled from the spec: `Seeders` accessor. -/
def TorznabItem.Seeders (it : TorznabItem) : Int :=
  it.GetAttrInt "seeders"

/-- Modelled from the spec: `Leechers` accessor. -/
def TorznabItem.Leechers (it : TorznabItem) : Int :=
  it.GetAttrInt "leechers"

/-- Modelled from the spec: `Peers` — the `peers` attribute when present,
otherwise the sum of seeders and leechers. -/
def TorznabItem.Peers (it : TorznabItem) : Int :=
  if it.GetAttrValues "peers" ≠ [] then it.GetAttrInt "peers"
  else it.Seeders + it.Leechers

/-- Modelled from the spec: `DownloadVolumeFactor` — defaults to `1.0` when
the attribute is absent. -/
def TorznabItem.DownloadVolumeFactor (it : TorznabItem) : ℚ :=
  if it.GetAttrValues "downloadvolumefactor" ≠ [] then
    it.GetAttrFloat "downloadvolumefactor"
  else 1

/-- Modelled from the spec: `UploadVolumeFactor` — defaults to `1.0` when the
attribute is absent. -/
def TorznabItem.UploadVolumeFactor (it : TorznabItem) : ℚ :=
  if it.GetAttrValues "uploadvolumefactor" ≠ [] then
    it.GetAttrFloat "uploadvolumefactor"
  else 1

/-- Modelled from the spec: `Tags` — every value of the repeated `tag`
attribute in wire order. -/
def TorznabItem.Tags (it : TorznabItem) : List String :=
  it.GetAttrValues "tag"

/-- Modelled from the spec: `Categories` — the repeated `category` extension
attribute when non-empty, otherwise the RSS-level category list; the two
sources are never merged. -/
def TorznabItem.Categories (it : TorznabItem) : List String :=
  match it.GetAttrValues "category" with
  | [] => it.Category
  | l => l

/-- Example raw item of the repo's `TestTorznabItemDefaults`: no extension
attributes, one RSS-level category. -/
def rawDefaultExample : RawItem := ⟨"Test Item", ["5000"], []⟩

/-- Claim C8: an item with no extension attributes yields, through the typed
view, seeders 0, leechers 0, peers 0, download and upload volume factors 1.0,
an empty tag list, and categories equal to the RSS-level category list. -/
theorem torznabItem_defaults (r : RawItem) (h : r.Attr = []) :
    (ToTorznabItem r).Seeders = 0 ∧ (ToTorznabItem r).Leechers = 0 ∧
      (ToTorznabItem r).Peers = 0 ∧
      (ToTorznabItem r).DownloadVolumeFactor = 1 ∧
      (ToTorznabItem r).UploadVolumeFactor = 1 ∧
      (ToTorznabItem r).Tags = [] ∧
      (ToTorznabItem r).Categories = r.Category := by
  obtain ⟨t, c, a⟩ := r
  cases h
  exact ⟨rfl, rfl, rfl, rfl, rfl, rfl, rfl⟩

/-- Witness for claim C8, at the item of the repo's `TestTorznabItemDefaults`. -/
theorem torznabItem_defaults_witness :
    (ToTorznabItem rawDefaultExample).Seeders = 0 ∧
      (ToTorznabItem rawDefaultExample).Leechers = 0 ∧
      (ToTorznabItem rawDefaultExample).Peers = 0 ∧
      (ToTorznabItem rawDefaultExample).DownloadVolumeFactor = 1 ∧
      (ToTorznabItem rawDefaultExample).UploadVolumeFactor = 1 ∧
      (ToTorznabItem rawDefaultExample).Tags = [] ∧
      (ToTorznabItem rawDefaultExample).Categories = ["5000"] :=
  torznabItem_defaults rawDefaultExample rfl
